import Mathlib

/-!
Verification of the recognition orchestration pipeline of
`langextract/contrib/ingest` (`pipeline.py`), against its specification.

The pipeline is shallowly embedded: external collaborators (engine module
constructors, the embedded-text extractor `pdfminer`, the rasterizer
`pdf2image`) are an explicit environment record `Env`; everything the
pipeline itself computes (`is_sufficient_vector_text`, `build_adapter`,
`auto_select_engine`, the fallback loop of `recognize_pdf` /
`recognize_images`, `maybe_enable_htr`) is translated from the source.
Python exceptions become `Except PipeError`; floats become `ℚ`.
`autodeps.ensure_common` / `ensure_for_engine` swallow every error
(`_pip_install` catches all exceptions), so they are semantically no-ops
and are not modelled as failure points.
-/

namespace LangExtract

/-- Errors a pipeline step can raise (Python exceptions). -/
inductive PipeError where
  | dependencyUnavailable (msg : String)
  | unknownEngine (name : String)
  | rasterizationFailed (msg : String)
  | importFailure (msg : String)
  | noEngineSucceeded (msg : String)
  | indexFailure
  | otherFailure (msg : String)
deriving DecidableEq, Repr

/-- Metadata dictionaries as they occur in the pipeline: a plain engine
dict, the `{"vector": True}` dict of the bypass branch, and the
`{"printed": ..., "htr": ...}` dict of the dual-pass combiner. -/
inductive PipeMeta where
  | dict (entries : List (String × String)) : PipeMeta
  | vectorTrue : PipeMeta
  | printedHtr (printed htr : PipeMeta) : PipeMeta
deriving DecidableEq, Repr

/-- A page image (PIL image): a size plus an identity tag so that the
environment can distinguish rasterizations at different dpi / page ranges. -/
structure Img where
  width : Nat
  height : Nat
  tag : Nat
deriving DecidableEq, Repr

/-- Python `Image.crop(box)`: result has the box's size, same underlying content tag. -/
def Img.crop (im : Img) (x0 y0 x1 y1 : Nat) : Img :=
  { width := x1 - x0, height := y1 - y0, tag := im.tag }

/-- Embeds `RecognizeResult` of `types.py`. -/
structure RecognizeResult where
  text : String
  mean_confidence : ℚ
  engine : String
  meta : PipeMeta
deriving DecidableEq, Repr

/-- Opaque per-engine configuration dict (the pipeline never inspects it). -/
abbrev Cfg : Type := List (String × String)

/-- A constructed recognizer adapter (`RecognizerAdapter` protocol):
capability flags plus the two recognition methods, which may raise. -/
structure Adapter where
  name : String
  supports_pdf : Bool
  supports_image : Bool
  recognize_pdf : String → Option Cfg → Except PipeError RecognizeResult
  recognize_images : List Img → Option Cfg → Except PipeError RecognizeResult

/-- External collaborators of the pipeline. `create e` models the engine
module's `create()` for registry key `e` (it may raise, e.g. the
`ImportError` of a missing engine runtime); `extract_vector_text` models
`pdfminer.high_level.extract_text`; `rasterize` models
`pdf2image.convert_from_path` at a path, dpi and page range. -/
structure Env where
  create : String → Except PipeError Adapter
  has_pdfminer : Bool
  extract_vector_text : String → Except PipeError String
  has_pdf2image : Bool
  rasterize : String → Nat → Option Nat → Option Nat → Except PipeError (List Img)

/-- Embeds `IngestResult` of `pipeline.py`. -/
structure IngestResult where
  input_path : Option String
  used_ocr : Bool
  engine : Option String
  ocr_confidence : Option ℚ
  text : String
  meta : PipeMeta
deriving DecidableEq, Repr

/-- Python `str.lower()`, character by character. -/
def pyLower (s : String) : String := ⟨s.data.map Char.toLower⟩

/-- Python `str.strip()`: drop whitespace from both ends. -/
def pyStrip (s : String) : String :=
  ⟨((s.data.dropWhile Char.isWhitespace).reverse.dropWhile Char.isWhitespace).reverse⟩

/-- Python `s[:n]`: the first `n` characters. -/
def pyTake (s : String) (n : Nat) : String := ⟨s.data.take n⟩

/-- Python `ch in s` for a single character. -/
def pyContains (s : String) (c : Char) : Bool := s.data.contains c

/-- Embeds `is_sufficient_vector_text` (pipeline.py lines 42-47). -/
def is_sufficient_vector_text (text : String) (min_len : Nat := 64) : Bool :=
  if text = "" then false
  else min_len ≤ (pyStrip text).length

/-- Embeds `_load_images_from_pdf` (pipeline.py lines 50-62). -/
def load_images_from_pdf (env : Env) (path : String) (dpi : Nat := 300)
    (first_page : Option Nat := none) (last_page : Option Nat := none) :
    Except PipeError (List Img) :=
  if !env.has_pdf2image then
    .error (.importFailure "pdf2image not available. Install extras: pip install .[ingest]")
  else env.rasterize path dpi first_page last_page

/-- Embeds `_pilot_crop` (pipeline.py lines 65-71): crop the first page to a
`max_side` box from the origin; `out or list(images[:1])` falls back to
the raw first page when `out` is empty. -/
def pilot_crop (images : List Img) (max_side : Nat := 512) : List Img :=
  let out := (images.take 1).map fun im =>
    im.crop 0 0 (min im.width max_side) (min im.height max_side)
  if out.isEmpty then images.take 1 else out

/-- The registry keys of `build_adapter` (pipeline.py lines 74-97). -/
def knownEngines : List String :=
  ["paddle", "tesseract", "easyocr", "doctr", "trocr", "donut", "nougat"]

/-- Embeds `build_adapter` (pipeline.py lines 74-97): lower-case the identifier,
dispatch to the engine module's `create()`, else raise `ValueError`. -/
def build_adapter (env : Env) (engine : String) : Except PipeError Adapter :=
  let e := pyLower engine
  if knownEngines.contains e then env.create e
  else .error (.unknownEngine engine)

/-- The Turkish script-bonus character set of `auto_select_engine`. -/
def scriptBonusChars : List Char :=
  ['ç', 'ğ', 'ı', 'ö', 'ş', 'ü', 'Ç', 'Ğ', 'İ', 'Ö', 'Ş', 'Ü']

/-- Rational addition written through `mkRat` (definitionally executable;
`Batteries`' `Rat.add` is `@[irreducible]`). `ratAdd_eq_add` shows it is
ordinary addition. -/
def ratAdd (a b : ℚ) : ℚ := mkRat (a.num * b.den + b.num * a.den) (a.den * b.den)

/-- The pilot score of one candidate (pipeline.py lines 113-117):
`mean_confidence`, plus `0.05` when the first 512 characters of the pilot
text contain any script-bonus character. -/
def pilot_score (res : RecognizeResult) : ℚ :=
  let txt := pyTake res.text 512
  if scriptBonusChars.any fun ch => pyContains txt ch then
    ratAdd res.mean_confidence (mkRat 5 100)
  else res.mean_confidence

/-- One candidate's construction plus pilot run, folded to its score:
`none` when `build_adapter` or `recognize_images` raises. -/
def pilot_outcome (env : Env) (pilot : List Img) (cfg : Option Cfg)
    (name : String) : Option ℚ :=
  match (build_adapter env name).bind fun a => a.recognize_images pilot cfg with
  | .ok res => some (pilot_score res)
  | .error _ => none

/-- One iteration of the `auto_select_engine` loop (pipeline.py lines
109-122), acting on the `(best_name, best_score)` accumulator. -/
def auto_step (env : Env) (pilot : List Img) (cfg : Option Cfg)
    (acc : Option String × ℚ) (name : String) : Option String × ℚ :=
  match pilot_outcome env pilot cfg name with
  | none => acc
  | some score => if acc.2 < score then (some name, score) else acc

/-- Python `candidates[0]`, raising `IndexError` on an empty list. -/
def firstCandidate : List String → Except PipeError String
  | [] => .error .indexFailure
  | c :: _ => .ok c

/-- Embeds `auto_select_engine` (pipeline.py lines 100-123). `best_name or
candidates[0]` reads the Python truthiness of `best_name`: `None` and the
empty string both fall through to `candidates[0]`. -/
def auto_select_engine (env : Env) (images : List Img)
    (candidates : List String := ["paddle", "easyocr", "tesseract"])
    (cfg : Option Cfg := none) : Except PipeError String :=
  match (candidates.foldl (auto_step env (pilot_crop images) cfg)
      (none, -1)).1 with
  | some n => if n = "" then firstCandidate candidates else .ok n
  | none => firstCandidate candidates

/-- The fixed default fallback triplet appended in `recognize_pdf` (lines
171-173) and `recognize_images` (lines 223-225). -/
def default_fallback : List String := ["paddle", "easyocr", "tesseract"]

/-- The engine candidate order of `recognize_pdf` (lines 166-173):
`list(fallback_order) if fallback_order else [engine]` (an empty caller
list is falsy), insert `engine` at the front when absent, then append each
default engine not already present. -/
def build_order (engine : String) (fallback_order : Option (List String)) :
    List String :=
  let order :=
    match fallback_order with
    | some fo => if fo.isEmpty then [engine] else fo
    | none => [engine]
  let order := if order.contains engine then order else engine :: order
  default_fallback.foldl (fun o n => if o.contains n then o else o ++ [n]) order

/-- One engine attempt of the `recognize_pdf` loop body (lines 177-184):
construct the adapter, then `recognize_pdf` when it supports PDF, else
`recognize_images` on the rasterized pages. (`autodeps.ensure_for_engine`
is a semantic no-op: it swallows every installer error.) -/
def run_engine_pdf (env : Env) (path : String) (images : List Img)
    (cfg : Cfg) (name : String) : Except PipeError RecognizeResult :=
  (build_adapter env name).bind fun adapter =>
    if adapter.supports_pdf then adapter.recognize_pdf path (some cfg)
    else adapter.recognize_images images (some cfg)

/-- One engine attempt of the `recognize_images` loop body (lines 230-232). -/
def run_engine_images (env : Env) (images : List Img) (cfg : Cfg)
    (name : String) : Except PipeError RecognizeResult :=
  (build_adapter env name).bind fun adapter =>
    adapter.recognize_images images (some cfg)

/-- The fallback executor loop shared by `recognize_pdf` (lines 175-209)
and `recognize_images` (lines 227-255), parametric in the per-engine
attempt `run`. It returns the pipeline result together with the list of
engines actually attempted (in order): an attempted engine is one whose
construction/invocation `run` was evaluated. Every exception from `run`
is caught and the loop continues; a result at or above the threshold is
returned immediately; on exhaustion the last successful result is
returned as a degraded success, else the terminal `RuntimeError`. -/
def fallbackLoop (run : String → Except PipeError RecognizeResult)
    (input_path : Option String) (threshold : ℚ) (fail_msg : String) :
    List String → Option RecognizeResult →
      Except PipeError IngestResult × List String
  | [], last =>
    (match last with
     | some res =>
       .ok ⟨input_path, true, some res.engine, some res.mean_confidence,
            res.text, res.meta⟩
     | none => .error (.noEngineSucceeded fail_msg), [])
  | name :: rest, last =>
    match run name with
    | .error _ =>
      let (r, tried) := fallbackLoop run input_path threshold fail_msg rest last
      (r, name :: tried)
    | .ok res =>
      if threshold ≤ res.mean_confidence then
        (.ok ⟨input_path, true, some name, some res.mean_confidence,
              res.text, res.meta⟩, [name])
      else
        let (r, tried) :=
          fallbackLoop run input_path threshold fail_msg rest (some res)
        (r, name :: tried)

/-- Which engine attempts the pipeline performed during one invocation. -/
structure PipeTrace where
  vector_attempted : Bool
  rasterized : Bool
  pilot_tried : List String
  engines_tried : List String
deriving DecidableEq, Repr

/-- Embeds `recognize_pdf` (pipeline.py lines 126-209), instrumented with the
trace of external attempts. `autodeps.ensure_common` swallows every
error and is a semantic no-op. -/
def recognize_pdf_traced (env : Env) (path : String) (engine : String := "auto")
    (prefer_ocr : Bool := false) (ocr_cfg : Option Cfg := none)
    (dpi : Nat := 300) (first_page : Option Nat := none)
    (last_page : Option Nat := none)
    (confidence_threshold : ℚ := mkRat 6 10)
    (fallback_order : Option (List String) := none) :
    Except PipeError IngestResult × PipeTrace :=
  let cfg : Cfg := ocr_cfg.getD []
  let vector_attempted := !prefer_ocr && env.has_pdfminer
  let vector_text : String :=
    if vector_attempted then
      match env.extract_vector_text path with
      | .ok t => t
      | .error _ => ""
    else ""
  if vector_text ≠ "" ∧ is_sufficient_vector_text vector_text then
    (.ok ⟨some path, false, none, none, vector_text, PipeMeta.vectorTrue⟩,
     ⟨vector_attempted, false, [], []⟩)
  else
    match load_images_from_pdf env path dpi first_page last_page with
    | .error e => (.error e, ⟨vector_attempted, true, [], []⟩)
    | .ok images =>
      let pilot_tried := if engine = "auto" then default_fallback else []
      let engineE : Except PipeError String :=
        if engine = "auto" then
          auto_select_engine env images default_fallback (some cfg)
        else .ok engine
      match engineE with
      | .error e => (.error e, ⟨vector_attempted, true, pilot_tried, []⟩)
      | .ok eng =>
        let order := build_order eng fallback_order
        let (r, tried) :=
          fallbackLoop (run_engine_pdf env path images cfg) (some path)
            confidence_threshold "No OCR engine succeeded for given PDF"
            order none
        (r, ⟨vector_attempted, true, pilot_tried, tried⟩)

/-- Embeds `recognize_pdf` (pipeline.py lines 126-209): the returned result. -/
def recognize_pdf (env : Env) (path : String) (engine : String := "auto")
    (prefer_ocr : Bool := false) (ocr_cfg : Option Cfg := none)
    (dpi : Nat := 300) (first_page : Option Nat := none)
    (last_page : Option Nat := none)
    (confidence_threshold : ℚ := mkRat 6 10)
    (fallback_order : Option (List String) := none) :
    Except PipeError IngestResult :=
  (recognize_pdf_traced env path engine prefer_ocr ocr_cfg dpi first_page
    last_page confidence_threshold fallback_order).1

/-- Embeds `recognize_images` (pipeline.py lines 212-255). -/
def recognize_images (env : Env) (images : List Img)
    (engine : String := "auto") (ocr_cfg : Option Cfg := none)
    (confidence_threshold : ℚ := mkRat 6 10) :
    Except PipeError IngestResult :=
  let cfg : Cfg := ocr_cfg.getD []
  let engineE : Except PipeError String :=
    if engine = "auto" then
      auto_select_engine env images default_fallback (some cfg)
    else .ok engine
  match engineE with
  | .error e => .error e
  | .ok eng =>
    let order :=
      default_fallback.foldl (fun o n => if o.contains n then o else o ++ [n])
        [eng]
    (fallbackLoop (run_engine_images env images cfg) none confidence_threshold
      "No OCR engine succeeded for images" order none).1

/-- Python `f"{x}"` for an optional string (`None` prints as `"None"`). -/
def pyFormatOpt : Option String → String
  | some s => s
  | none => "None"

/-- Embeds `maybe_enable_htr` (pipeline.py lines 258-288): printed pass, then an
optional handwriting pass whose failure returns the printed result
unchanged. -/
def maybe_enable_htr (env : Env) (images : List Img)
    (enable_htr : Bool := false) (printed_text_engine : String := "paddle")
    (htr_engine : String := "trocr") (ocr_cfg : Option Cfg := none) :
    Except PipeError IngestResult :=
  if !enable_htr then
    recognize_images env images printed_text_engine ocr_cfg
  else
    match recognize_images env images printed_text_engine ocr_cfg with
    | .error e => .error e
    | .ok printed =>
      match (build_adapter env htr_engine).bind fun a =>
              a.recognize_images images ocr_cfg with
      | .error _ => .ok printed
      | .ok htr_res =>
        .ok ⟨none, true,
             some (pyFormatOpt printed.engine ++ "+" ++ htr_res.engine),
             some (max (printed.ocr_confidence.getD 0) htr_res.mean_confidence),
             printed.text ++ "\n" ++ htr_res.text,
             PipeMeta.printedHtr printed.meta htr_res.meta⟩

/-- Does engine `n` succeed at or above the threshold under `run`? -/
def clears (run : String → Except PipeError RecognizeResult) (θ : ℚ)
    (n : String) : Bool :=
  match run n with
  | .ok r => θ ≤ r.mean_confidence
  | .error _ => false

/-- The `last_res` of the loop after attempting every engine of `order`:
the result of the last successful attempt, if any. -/
def lastSuccess (run : String → Except PipeError RecognizeResult)
    (order : List String) : Option RecognizeResult :=
  order.foldl (fun acc n => match run n with | .ok r => some r | .error _ => acc)
    none

/-- Three stub engines realizing the spec's early-exit example: confidences
0.3, 0.9, 0.99 under threshold 0.6. -/
def runW1 : String → Except PipeError RecognizeResult := fun n =>
  if n = "x" then .ok ⟨"tx", mkRat 3 10, "x", .dict []⟩
  else if n = "y" then .ok ⟨"ty", mkRat 9 10, "y", .dict []⟩
  else .ok ⟨"tz", mkRat 99 100, "z", .dict []⟩

/-- Stub engines for the degradation witness: `a` raises, `b` and `c`
succeed below the 0.6 threshold (0.2 and 0.3). -/
def runW2 : String → Except PipeError RecognizeResult := fun n =>
  if n = "a" then .error (.dependencyUnavailable "a missing")
  else if n = "b" then .ok ⟨"tb", mkRat 2 10, "b", .dict []⟩
  else if n = "c" then .ok ⟨"tc", mkRat 3 10, "c", .dict []⟩
  else .error (.unknownEngine n)

/-- An environment whose only available engine confidently reports an
empty text: `create "paddle"` yields an image-only adapter returning
`text = ""` with confidence 0.9. -/
def envC3 : Env :=
  { create := fun e =>
      if e = "paddle" then
        .ok ⟨"paddle", false, true,
             fun _ _ => .error (.otherFailure "unsupported"),
             fun _ _ => .ok ⟨"", mkRat 9 10, "paddle", .dict []⟩⟩
      else .error (.dependencyUnavailable e),
    has_pdfminer := false,
    extract_vector_text := fun _ => .error (.otherFailure "no pdfminer"),
    has_pdf2image := true,
    rasterize := fun _ _ _ _ => .ok [] }

/-- An environment in which every engine construction raises, so the
fallback loop attempts the entire candidate order. -/
def envC4 : Env :=
  { create := fun _ => .error (.dependencyUnavailable "nothing installed"),
    has_pdfminer := false,
    extract_vector_text := fun _ => .error (.otherFailure "no pdfminer"),
    has_pdf2image := true,
    rasterize := fun _ _ _ _ => .ok [] }

/-- Is the candidate's pilot score at most `s` (vacuously true when the
candidate raised)? -/
def pilot_le (env : Env) (pilot : List Img) (cfg : Option Cfg)
    (name : String) (s : ℚ) : Bool :=
  match pilot_outcome env pilot cfg name with
  | some t => t ≤ s
  | none => true

/-- Is the candidate's pilot score strictly below `s` (vacuously true when
the candidate raised)? -/
def pilot_lt (env : Env) (pilot : List Img) (cfg : Option Cfg)
    (name : String) (s : ℚ) : Bool :=
  match pilot_outcome env pilot cfg name with
  | some t => t < s
  | none => true

/-- Is the candidate's pilot score nonnegative (vacuously true when the
candidate raised)? All real adapters clamp `mean_confidence` into [0, 1],
so this holds of every adapter satisfying the adapter contract. -/
def pilot_nonneg (env : Env) (pilot : List Img) (cfg : Option Cfg)
    (name : String) : Bool :=
  match pilot_outcome env pilot cfg name with
  | some t => 0 ≤ t
  | none => true

/-- Deterministic pilot stubs: `paddle` scores 0.6 with no bonus
character, `easyocr` scores 0.65 plus the 0.05 script bonus (its text
contains `ç`), `tesseract` ties `paddle` at 0.6, and every other engine
raises on construction. -/
def envC5 : Env :=
  { create := fun e =>
      if e = "paddle" then
        .ok ⟨"paddle", true, true,
             fun _ _ => .error (.otherFailure "no pdf pilot"),
             fun _ _ => .ok ⟨"plain text", mkRat 6 10, "paddle", .dict []⟩⟩
      else if e = "easyocr" then
        .ok ⟨"easyocr", false, true,
             fun _ _ => .error (.otherFailure "unsupported"),
             fun _ _ => .ok ⟨"çok iyi", mkRat 65 100, "easyocr", .dict []⟩⟩
      else if e = "tesseract" then
        .ok ⟨"tesseract", false, true,
             fun _ _ => .error (.otherFailure "unsupported"),
             fun _ _ => .ok ⟨"same", mkRat 6 10, "tesseract", .dict []⟩⟩
      else .error (.dependencyUnavailable e),
    has_pdfminer := false,
    extract_vector_text := fun _ => .error (.otherFailure "none"),
    has_pdf2image := true,
    rasterize := fun _ _ _ _ => .ok [] }

/-- The extractor of `envC6` returns an 80-character embedded text; the
rasterizer and every engine constructor are set to fail, so any attempt
to use them would be visible in the outcome. -/
def envC6 : Env :=
  { create := fun _ => .error (.dependencyUnavailable "never used"),
    has_pdfminer := true,
    extract_vector_text := fun _ => .ok (String.mk (List.replicate 80 'v')),
    has_pdf2image := false,
    rasterize := fun _ _ _ _ => .error (.rasterizationFailed "never used") }

/-- The extractor of `envC7` always fails; `tesseract` is installed and
recognizes images at confidence 0.7. -/
def envC7 : Env :=
  { create := fun e =>
      if e = "tesseract" then
        .ok ⟨"tesseract", false, true,
             fun _ _ => .error (.otherFailure "unsupported"),
             fun _ _ => .ok ⟨"W", mkRat 7 10, "tesseract", .dict []⟩⟩
      else .error (.dependencyUnavailable e),
    has_pdfminer := true,
    extract_vector_text := fun _ => .error (.otherFailure "parse failure"),
    has_pdf2image := true,
    rasterize := fun _ _ _ _ => .ok [] }

/-- Engines for the dual-pass witness: printed pass `paddle` yields `"P"`
at confidence 0.5 (below threshold, returned as the degraded printed
result), handwriting pass `trocr` yields `"H"` at 0.8. -/
def envC8 : Env :=
  { create := fun e =>
      if e = "paddle" then
        .ok ⟨"paddle", false, true,
             fun _ _ => .error (.otherFailure "unsupported"),
             fun _ _ => .ok ⟨"P", mkRat 1 2, "paddle", .dict []⟩⟩
      else if e = "trocr" then
        .ok ⟨"trocr", false, true,
             fun _ _ => .error (.otherFailure "unsupported"),
             fun _ _ => .ok ⟨"H", mkRat 8 10, "trocr", .dict []⟩⟩
      else .error (.dependencyUnavailable e),
    has_pdfminer := false,
    extract_vector_text := fun _ => .error (.otherFailure "none"),
    has_pdf2image := true,
    rasterize := fun _ _ _ _ => .ok [] }

/-- Like `envC8` but with the handwriting engine missing, so the second
pass raises `DependencyUnavailable`. -/
def envC8b : Env :=
  { create := fun e =>
      if e = "paddle" then
        .ok ⟨"paddle", false, true,
             fun _ _ => .error (.otherFailure "unsupported"),
             fun _ _ => .ok ⟨"P", mkRat 1 2, "paddle", .dict []⟩⟩
      else .error (.dependencyUnavailable e),
    has_pdfminer := false,
    extract_vector_text := fun _ => .error (.otherFailure "none"),
    has_pdf2image := true,
    rasterize := fun _ _ _ _ => .ok [] }

/-- One slow sub-threshold engine and two raising ones for the C9 witness. -/
def runW9 : String → Except PipeError RecognizeResult := fun n =>
  if n = "p" then .ok ⟨"tp", mkRat 1 10, "p", .dict []⟩
  else .error (.dependencyUnavailable n)

/-- The PDF-capable `paddle` adapter of the C10 environment: it reads the
original path (confidence 0.9, text `"paddle-text"`) and rejects images. -/
def paddleC10 : Adapter :=
  ⟨"paddle", true, true,
   fun _ _ => .ok ⟨"paddle-text", mkRat 9 10, "paddle", .dict []⟩,
   fun _ _ => .error (.otherFailure "images unsupported")⟩

/-- An environment whose rasterizer output depends on the requested dpi
(the page image records the dpi) and whose `tesseract` engine clears the
threshold only on the 300-dpi rasterization. -/
def envC10 : Env :=
  { create := fun e =>
      if e = "paddle" then .ok paddleC10
      else if e = "tesseract" then
        .ok ⟨"tesseract", false, true,
             fun _ _ => .error (.otherFailure "no pdf"),
             fun imgs _ =>
               if imgs = [⟨300, 300, 0⟩] then
                 .ok ⟨"tess-high", mkRat 9 10, "tesseract", .dict []⟩
               else .ok ⟨"tess-low", mkRat 1 10, "tesseract", .dict []⟩⟩
      else .error (.dependencyUnavailable e),
    has_pdfminer := false,
    extract_vector_text := fun _ => .error (.otherFailure "none"),
    has_pdf2image := true,
    rasterize := fun _ dpi _ _ => .ok [⟨dpi, dpi, 0⟩] }

theorem ratAdd_eq_add (a b : ℚ) : ratAdd a b = a + b := by
  rw [Rat.add_def]
  simp [ratAdd, Rat.normalize_eq_mkRat]

theorem fallback_early_exit_aux (run : String → Except PipeError RecognizeResult)
    (ip : Option String) (θ : ℚ) (msg : String) :
    ∀ (order : List String) (i : Nat) (hi : i < order.length)
      (last : Option RecognizeResult) (res : RecognizeResult),
      run (order.get ⟨i, hi⟩) = .ok res → θ ≤ res.mean_confidence →
      (∀ j (hj : j < order.length), j < i →
        clears run θ (order.get ⟨j, hj⟩) = false) →
      fallbackLoop run ip θ msg order last =
        (.ok ⟨ip, true, some (order.get ⟨i, hi⟩), some res.mean_confidence,
              res.text, res.meta⟩,
         order.take (i + 1)) := by
  intro order
  induction order with
  | nil => intro i hi; exact absurd hi (by simp)
  | cons n rest ih =>
    intro i hi last res hok hθ hbefore
    match i with
    | 0 =>
      simp only [List.get] at hok ⊢
      simp only [fallbackLoop, hok, if_pos hθ, List.take]
    | Nat.succ i' =>
      have hb0 : clears run θ n = false := hbefore 0 (by simp) (by omega)
      have hi' : i' < rest.length := by
        simpa using Nat.lt_of_succ_lt_succ hi
      have hok' : run (rest.get ⟨i', hi'⟩) = .ok res := hok
      have hbefore' : ∀ j (hj : j < rest.length), j < i' →
          clears run θ (rest.get ⟨j, hj⟩) = false := by
        intro j hj hlt
        exact hbefore (j + 1) (by simpa using Nat.succ_lt_succ hj)
          (Nat.succ_lt_succ hlt)
      simp only [clears] at hb0
      cases hrun : run n with
      | error e =>
        simp only [fallbackLoop, hrun]
        rw [ih i' hi' last res hok' hθ hbefore']
        simp [List.take]
      | ok r =>
        rw [hrun] at hb0
        have hle : ¬ (θ ≤ r.mean_confidence) := by
          simpa using hb0
        simp only [fallbackLoop, hrun, if_neg hle]
        rw [ih i' hi' (some r) res hok' hθ hbefore']
        simp [List.take]

/-- C1: the fallback executor tries engines in candidate order and
early-exits: the first engine in the order whose attempt succeeds with
`mean_confidence` at or above the threshold has its outcome returned
(`used_ocr = true`, that engine's name, confidence and text), and the
engines attempted are exactly the prefix of the order up to and including
that engine — no later engine is constructed or invoked. -/
theorem C1_fallback_early_exit (run : String → Except PipeError RecognizeResult)
    (ip : Option String) (θ : ℚ) (msg : String) (order : List String)
    (i : Nat) (hi : i < order.length) (res : RecognizeResult)
    (hok : run (order.get ⟨i, hi⟩) = .ok res)
    (hθ : θ ≤ res.mean_confidence)
    (hbefore : ∀ j (hj : j < order.length), j < i →
      clears run θ (order.get ⟨j, hj⟩) = false) :
    fallbackLoop run ip θ msg order none =
      (.ok ⟨ip, true, some (order.get ⟨i, hi⟩), some res.mean_confidence,
            res.text, res.meta⟩,
       order.take (i + 1)) :=
  fallback_early_exit_aux run ip θ msg order i hi none res hok hθ hbefore

/-- C1 witness: with engines `[x (0.3), y (0.9), z (0.99)]` and threshold
0.6, the executor returns `y`'s outcome and attempts exactly `[x, y]`. -/
theorem C1_witness :
    fallbackLoop runW1 (some "p") (mkRat 6 10) "m" ["x", "y", "z"] none =
      (.ok ⟨some "p", true, some "y", some (mkRat 9 10), "ty",
            PipeMeta.dict []⟩, ["x", "y"]) :=
  C1_fallback_early_exit runW1 (some "p") (mkRat 6 10) "m" ["x", "y", "z"] 1
    (by decide) ⟨"ty", mkRat 9 10, "y", .dict []⟩ rfl (by decide)
    (by decide)

theorem fallback_degraded_aux (run : String → Except PipeError RecognizeResult)
    (ip : Option String) (θ : ℚ) (msg : String) :
    ∀ (order : List String) (last : Option RecognizeResult),
      (∀ n ∈ order, clears run θ n = false) →
      (fallbackLoop run ip θ msg order last).1 =
        (match order.foldl
            (fun acc n => match run n with | .ok r => some r | .error _ => acc)
            last with
         | some res =>
           .ok ⟨ip, true, some res.engine, some res.mean_confidence,
                res.text, res.meta⟩
         | none => .error (.noEngineSucceeded msg)) := by
  intro order
  induction order with
  | nil => intro last h; rfl
  | cons n rest ih =>
    intro last h
    have hn : clears run θ n = false := h n (by simp)
    simp only [clears] at hn
    cases hrun : run n with
    | error e =>
      rw [hrun] at hn
      simp only [fallbackLoop, hrun, List.foldl]
      cases hfb : fallbackLoop run ip θ msg rest last with
      | mk r t =>
        have := ih last fun m hm => h m (List.mem_cons_of_mem _ hm)
        rw [hfb] at this
        simpa using this
    | ok r =>
      rw [hrun] at hn
      have hle : ¬ (θ ≤ r.mean_confidence) := by simpa using hn
      simp only [fallbackLoop, hrun, if_neg hle, List.foldl]
      cases hfb : fallbackLoop run ip θ msg rest (some r) with
      | mk r' t =>
        have := ih (some r) fun m hm => h m (List.mem_cons_of_mem _ hm)
        rw [hfb] at this
        simpa using this

/-- C2: the fallback executor degrades gracefully. First conjunct: an
engine whose construction/invocation raises is skipped and the loop
continues with the rest (the failure only prepends that engine to the
attempt trace). Second conjunct: when no engine reaches the threshold,
the executor returns the last successful result as a below-threshold
success, and fails with the `NoEngineSucceeded` error (the terminal
`RuntimeError`) when no engine produced any result. -/
theorem C2_fallback_degradation (run : String → Except PipeError RecognizeResult)
    (ip : Option String) (θ : ℚ) (msg : String) (order : List String) :
    (∀ (n : String) (rest : List String) (last : Option RecognizeResult)
       (e : PipeError), run n = .error e →
       fallbackLoop run ip θ msg (n :: rest) last =
         ((fallbackLoop run ip θ msg rest last).1,
          n :: (fallbackLoop run ip θ msg rest last).2))
    ∧ ((∀ n ∈ order, clears run θ n = false) →
       (fallbackLoop run ip θ msg order none).1 =
         (match lastSuccess run order with
          | some res =>
            .ok ⟨ip, true, some res.engine, some res.mean_confidence,
                 res.text, res.meta⟩
          | none => .error (.noEngineSucceeded msg))) := by
  constructor
  · intro n rest last e he
    simp only [fallbackLoop, he]
  · intro h
    exact fallback_degraded_aux run ip θ msg order none h

/-- C2 witness: the raising engine `a` is skipped; the exhausted loop
returns the last success `c` (confidence 0.3 < 0.6); an order whose every
engine raises fails with `NoEngineSucceeded`. -/
theorem C2_witness :
    fallbackLoop runW2 none (mkRat 6 10) "m" ["a", "b", "c"] none =
      ((fallbackLoop runW2 none (mkRat 6 10) "m" ["b", "c"] none).1,
       "a" :: (fallbackLoop runW2 none (mkRat 6 10) "m" ["b", "c"] none).2)
    ∧ (fallbackLoop runW2 none (mkRat 6 10) "m" ["a", "b", "c"] none).1 =
        .ok ⟨none, true, some "c", some (mkRat 3 10), "tc", PipeMeta.dict []⟩
    ∧ (fallbackLoop runW2 none (mkRat 6 10) "m" ["a", "zz"] none).1 =
        .error (.noEngineSucceeded "m") := by
  refine ⟨?_, ?_, ?_⟩
  · exact (C2_fallback_degradation runW2 none (mkRat 6 10) "m" []).1 "a"
      ["b", "c"] none (.dependencyUnavailable "a missing") rfl
  · exact (C2_fallback_degradation runW2 none (mkRat 6 10) "m"
      ["a", "b", "c"]).2 (by decide)
  · exact (C2_fallback_degradation runW2 none (mkRat 6 10) "m"
      ["a", "zz"]).2 (by decide)

theorem fallback_ok_invariant (run : String → Except PipeError RecognizeResult)
    (ip : Option String) (θ : ℚ) (msg : String) :
    ∀ (order : List String) (last : Option RecognizeResult) (r : IngestResult),
      (fallbackLoop run ip θ msg order last).1 = .ok r →
      r.used_ocr = true ∧ r.input_path = ip ∧ r.engine.isSome ∧
        r.ocr_confidence.isSome := by
  intro order
  induction order with
  | nil =>
    intro last r h
    cases last with
    | none => exact absurd h (by simp [fallbackLoop])
    | some res =>
      simp only [fallbackLoop] at h
      cases h
      simp
  | cons n rest ih =>
    intro last r h
    cases hrun : run n with
    | error e =>
      rw [(C2_fallback_degradation run ip θ msg []).1 n rest last e hrun] at h
      exact ih last r h
    | ok res =>
      by_cases hθ : θ ≤ res.mean_confidence
      · simp only [fallbackLoop, hrun, if_pos hθ] at h
        cases h
        simp
      · simp only [fallbackLoop, hrun, if_neg hθ] at h
        cases hfb : fallbackLoop run ip θ msg rest (some res) with
        | mk r' t =>
          rw [hfb] at h
          simp only at h
          exact ih (some res) r (by rw [hfb]; exact h)

/-- Every successful result of `recognize_pdf` is either the vector-text
bypass (`used_ocr = false`, no engine, no confidence, text exactly the
embedded text that `pdfminer` extracted, which is non-empty) or an engine
result (`used_ocr = true` with an engine name and a confidence present). -/
theorem recognize_pdf_traced_ok (env : Env) (path : String) (engine : String)
    (pre : Bool) (cfg : Option Cfg) (dpi : Nat) (fp lp : Option Nat) (θ : ℚ)
    (fo : Option (List String)) (r : IngestResult) :
    (recognize_pdf_traced env path engine pre cfg dpi fp lp θ fo).1 = .ok r →
    (r.used_ocr = false ∧ r.engine = none ∧ r.ocr_confidence = none ∧
       pre = false ∧ env.has_pdfminer = true ∧
       env.extract_vector_text path = .ok r.text ∧ r.text ≠ "")
    ∨ (r.used_ocr = true ∧ r.engine.isSome ∧ r.ocr_confidence.isSome) := by
  intro h
  unfold recognize_pdf_traced at h
  by_cases hgate : ((if (!pre && env.has_pdfminer) = true then
      match env.extract_vector_text path with
      | .ok t => t
      | .error _ => "" else "") ≠ "" ∧
      is_sufficient_vector_text (if (!pre && env.has_pdfminer) = true then
        match env.extract_vector_text path with
        | .ok t => t
        | .error _ => "" else "") = true)
  · rw [if_pos hgate] at h
    simp only at h
    cases h
    left
    obtain ⟨hne, _⟩ := hgate
    by_cases hpm : (!pre && env.has_pdfminer) = true
    · rw [if_pos hpm] at hne ⊢
      cases hext : env.extract_vector_text path with
      | error e => rw [hext] at hne; exact absurd rfl hne
      | ok t =>
        rw [hext] at hne
        refine ⟨rfl, rfl, rfl, ?_, ?_, ?_, ?_⟩
        · cases pre with
          | false => rfl
          | true => exact absurd hpm (by simp)
        · cases hp : env.has_pdfminer with
          | true => rfl
          | false => rw [hp] at hpm; exact absurd hpm (by simp)
        · simp only [hpm, if_pos, hext]
        · simpa [hpm, hext] using hne
    · rw [if_neg hpm] at hne
      exact absurd rfl hne
  · rw [if_neg hgate] at h
    right
    cases hload : load_images_from_pdf env path dpi fp lp with
    | error e => rw [hload] at h; exact absurd h (by simp)
    | ok images =>
      rw [hload] at h
      simp only at h
      cases heng : (if engine = "auto" then
          auto_select_engine env images default_fallback (some (cfg.getD []))
        else .ok engine) with
      | error e => rw [heng] at h; exact absurd h (by simp)
      | ok eng =>
        rw [heng] at h
        simp only at h
        cases hfb : fallbackLoop (run_engine_pdf env path images (cfg.getD []))
            (some path) θ "No OCR engine succeeded for given PDF"
            (build_order eng fo) none with
        | mk res tried =>
          rw [hfb] at h
          simp only at h
          have := fallback_ok_invariant
            (run_engine_pdf env path images (cfg.getD [])) (some path) θ
            "No OCR engine succeeded for given PDF" (build_order eng fo) none r
            (by rw [hfb]; exact h)
          exact ⟨this.1, this.2.2.1, this.2.2.2⟩

theorem recognize_images_ok (env : Env) (images : List Img) (engine : String)
    (cfg : Option Cfg) (θ : ℚ) (r : IngestResult) :
    recognize_images env images engine cfg θ = .ok r →
    r.used_ocr = true ∧ r.input_path = none ∧ r.engine.isSome ∧
      r.ocr_confidence.isSome := by
  intro h
  unfold recognize_images at h
  simp only [] at h
  cases heng : (if engine = "auto" then
      auto_select_engine env images default_fallback (some (cfg.getD []))
    else .ok engine) with
  | error e => rw [heng] at h; exact absurd h (by simp)
  | ok eng =>
    rw [heng] at h
    simp only at h
    exact fallback_ok_invariant (run_engine_images env images (cfg.getD []))
      none θ "No OCR engine succeeded for images" _ none r h

/-- C3 (amended): the result invariant of all three pipeline entry
points. A `recognize_pdf` result with `used_ocr = false` has no engine,
no confidence, and its text is exactly the (non-empty) embedded text the
extractor returned; every result with `used_ocr = true` — from any entry
point — carries an engine name and a confidence. (The text of an OCR
result may be empty: the pipeline thresholds only on confidence.) -/
theorem C3_result_invariant (env : Env) (path : String) (engine : String)
    (pre : Bool) (cfg : Option Cfg) (dpi : Nat) (fp lp : Option Nat) (θ : ℚ)
    (fo : Option (List String)) (images : List Img) (engine2 : String)
    (cfg2 : Option Cfg) (θ2 : ℚ) (enable : Bool) (pe he : String)
    (cfg3 : Option Cfg) :
    (∀ r, recognize_pdf env path engine pre cfg dpi fp lp θ fo = .ok r →
       ((r.used_ocr = false →
           r.engine = none ∧ r.ocr_confidence = none ∧
           env.extract_vector_text path = .ok r.text ∧ r.text ≠ "")
        ∧ (r.used_ocr = true → r.engine.isSome ∧ r.ocr_confidence.isSome)))
    ∧ (∀ r, recognize_images env images engine2 cfg2 θ2 = .ok r →
         r.used_ocr = true ∧ r.engine.isSome ∧ r.ocr_confidence.isSome)
    ∧ (∀ r, maybe_enable_htr env images enable pe he cfg3 = .ok r →
         r.used_ocr = true ∧ r.engine.isSome ∧ r.ocr_confidence.isSome) := by
  refine ⟨?_, ?_, ?_⟩
  · intro r h
    have := recognize_pdf_traced_ok env path engine pre cfg dpi fp lp θ fo r h
    constructor
    · intro hfalse
      rcases this with ⟨_, h1, h2, _, _, h5, h6⟩ | ⟨h1, _⟩
      · exact ⟨h1, h2, h5, h6⟩
      · rw [hfalse] at h1; cases h1
    · intro htrue
      rcases this with ⟨h1, _⟩ | ⟨_, h2, h3⟩
      · rw [htrue] at h1; cases h1
      · exact ⟨h2, h3⟩
  · intro r h
    have := recognize_images_ok env images engine2 cfg2 θ2 r h
    exact ⟨this.1, this.2.2⟩
  · intro r h
    unfold maybe_enable_htr at h
    cases enable with
    | false =>
      have := recognize_images_ok env images pe cfg3 (mkRat 6 10) r (by simpa using h)
      exact ⟨this.1, this.2.2⟩
    | true =>
      simp only [Bool.not_true] at h
      cases hpr : recognize_images env images pe cfg3 (mkRat 6 10) with
      | error e => rw [hpr] at h; exact absurd h (by simp)
      | ok printed =>
        rw [hpr] at h
        simp only at h
        cases hhtr : (build_adapter env he).bind
            (fun a => a.recognize_images images cfg3) with
        | error e =>
          rw [hhtr] at h
          simp only at h
          have hr : printed = r := by injection h
          subst hr
          have := recognize_images_ok env images pe cfg3 (mkRat 6 10) printed hpr
          exact ⟨this.1, this.2.2⟩
        | ok htr_res =>
          rw [hhtr] at h
          simp only at h
          cases h
          simp

/-- C3 counterexample: the pipeline returns a success with
`used_ocr = true` and an empty text — it does not raise when an engine
clears the confidence threshold with empty text, contradicting the
claimed "text is non-empty whenever used_ocr is true" invariant. -/
theorem C3_counterexample :
    recognize_images envC3 [] "paddle" none (mkRat 6 10) =
      .ok ⟨none, true, some "paddle", some (mkRat 9 10), "", PipeMeta.dict []⟩ :=
  rfl

/-- C3 witness: the invariant evaluated on a concrete run — the result
of `recognize_images` under `envC3` has `used_ocr = true` and both an
engine name and a confidence present. -/
theorem C3_witness :
    (⟨none, true, some "paddle", some (mkRat 9 10), "",
        PipeMeta.dict []⟩ : IngestResult).used_ocr = true
    ∧ (⟨none, true, some "paddle", some (mkRat 9 10), "",
        PipeMeta.dict []⟩ : IngestResult).engine.isSome = true
    ∧ (⟨none, true, some "paddle", some (mkRat 9 10), "",
        PipeMeta.dict []⟩ : IngestResult).ocr_confidence.isSome = true :=
  (C3_result_invariant envC3 "p" "paddle" false none 300 none none
      (mkRat 6 10) none [] "paddle" none (mkRat 6 10) false "paddle" "trocr"
      none).2.1
    ⟨none, true, some "paddle", some (mkRat 9 10), "", PipeMeta.dict []⟩ rfl

/-- C4 amendment, order construction: appending each default engine not
already present preserves distinctness. -/
theorem fold_append_nodup (defaults : List String) :
    ∀ (o : List String), o.Nodup →
      (defaults.foldl (fun o n => if o.contains n then o else o ++ [n])
        o).Nodup := by
  induction defaults with
  | nil => intro o h; exact h
  | cons d ds ih =>
    intro o h
    simp only [List.foldl]
    by_cases hc : o.contains d
    · rw [if_pos hc]; exact ih o h
    · rw [if_neg hc]
      apply ih
      rw [List.nodup_append]
      refine ⟨h, by simp, ?_⟩
      intro a ha hb
      simp only [List.mem_singleton] at hb
      subst hb
      exact hc (by simpa using ha)

/-- C4 (amended): when the caller-supplied fallback order is itself
duplicate-free (or absent), the executed engine candidate order is a
sequence of pairwise-distinct identifiers: the explicit or auto-selected
engine is prepended only when absent, and each default engine is appended
only when absent. (A caller order containing repeats is executed with
those repeats: the code never deduplicates the caller's list.) -/
theorem C4_order_nodup (engine : String) (fo : Option (List String))
    (hfo : ∀ l, fo = some l → l.Nodup) : (build_order engine fo).Nodup := by
  unfold build_order
  apply fold_append_nodup
  have hbase : (match fo with
      | some l => if l.isEmpty then [engine] else l
      | none => [engine]).Nodup := by
    cases fo with
    | none => simp
    | some l =>
      by_cases hl : l.isEmpty
      · simp [hl]
      · simpa [hl] using hfo l rfl
  by_cases hc : (match fo with
      | some l => if l.isEmpty then [engine] else l
      | none => [engine]).contains engine
  · rw [if_pos hc]; exact hbase
  · rw [if_neg hc]
    exact List.Nodup.cons
      (fun hm => hc (by simpa using hm)) hbase

/-- C4 counterexample: a caller-supplied fallback order with a repeated
identifier is executed as-is — the candidate order `["paddle", "paddle",
"easyocr", "tesseract"]` contains `"paddle"` twice and it is attempted
twice, refuting the claimed pairwise distinctness. -/
theorem C4_counterexample :
    build_order "paddle" (some ["paddle", "paddle"]) =
      ["paddle", "paddle", "easyocr", "tesseract"]
    ∧ ¬ (build_order "paddle" (some ["paddle", "paddle"])).Nodup
    ∧ (recognize_pdf_traced envC4 "d.pdf" "paddle" false none 300 none none
        (mkRat 6 10) (some ["paddle", "paddle"])).2.engines_tried =
      ["paddle", "paddle", "easyocr", "tesseract"] :=
  ⟨rfl, by decide, rfl⟩

/-- C4 witness: a duplicate-free caller order yields a duplicate-free
executed order. -/
theorem C4_witness :
    (build_order "trocr" (some ["tesseract", "trocr"])).Nodup :=
  C4_order_nodup "trocr" (some ["tesseract", "trocr"])
    (fun l hl => by cases hl; decide)

theorem auto_fold_skip_all (env : Env) (pilot : List Img) (cfg : Option Cfg) :
    ∀ (l : List String) (acc : Option String × ℚ),
      (∀ n ∈ l, pilot_outcome env pilot cfg n = none) →
      l.foldl (auto_step env pilot cfg) acc = acc := by
  intro l
  induction l with
  | nil => intro acc _; rfl
  | cons n rest ih =>
    intro acc h
    have hn := h n (by simp)
    simp only [List.foldl, auto_step, hn]
    exact ih acc fun m hm => h m (List.mem_cons_of_mem _ hm)

theorem auto_fold_hold (env : Env) (pilot : List Img) (cfg : Option Cfg) :
    ∀ (l : List String) (b : Option String) (s : ℚ),
      (∀ n ∈ l, pilot_le env pilot cfg n s = true) →
      l.foldl (auto_step env pilot cfg) (b, s) = (b, s) := by
  intro l
  induction l with
  | nil => intro b s _; rfl
  | cons n rest ih =>
    intro b s h
    have hn := h n (by simp)
    simp only [pilot_le] at hn
    cases hout : pilot_outcome env pilot cfg n with
    | none =>
      simp only [List.foldl, auto_step, hout]
      exact ih b s fun m hm => h m (List.mem_cons_of_mem _ hm)
    | some t =>
      rw [hout] at hn
      have hts : t ≤ s := by simpa using hn
      simp only [List.foldl, auto_step, hout]
      rw [if_neg (not_lt.mpr hts)]
      exact ih b s fun m hm => h m (List.mem_cons_of_mem _ hm)

theorem auto_fold_argmax (env : Env) (pilot : List Img) (cfg : Option Cfg) :
    ∀ (l : List String) (acc : Option String × ℚ) (i : Nat)
      (hi : i < l.length) (s : ℚ),
      pilot_outcome env pilot cfg (l.get ⟨i, hi⟩) = some s →
      (∀ n ∈ l, pilot_le env pilot cfg n s = true) →
      (∀ j (hj : j < l.length), j < i →
        pilot_lt env pilot cfg (l.get ⟨j, hj⟩) s = true) →
      acc.2 < s →
      l.foldl (auto_step env pilot cfg) acc = (some (l.get ⟨i, hi⟩), s) := by
  intro l
  induction l with
  | nil => intro acc i hi; exact absurd hi (by simp)
  | cons n rest ih =>
    intro acc i hi s hout hmax hstrict hacc
    match i with
    | 0 =>
      simp only [List.get] at hout ⊢
      simp only [List.foldl, auto_step, hout, if_pos hacc]
      exact auto_fold_hold env pilot cfg rest (some n) s
        fun m hm => hmax m (List.mem_cons_of_mem _ hm)
    | Nat.succ i' =>
      have hi' : i' < rest.length := by simpa using Nat.lt_of_succ_lt_succ hi
      have hout' : pilot_outcome env pilot cfg (rest.get ⟨i', hi'⟩) = some s :=
        hout
      have hmax' : ∀ m ∈ rest, pilot_le env pilot cfg m s = true :=
        fun m hm => hmax m (List.mem_cons_of_mem _ hm)
      have hstrict' : ∀ j (hj : j < rest.length), j < i' →
          pilot_lt env pilot cfg (rest.get ⟨j, hj⟩) s = true := by
        intro j hj hlt
        exact hstrict (j + 1) (by simpa using Nat.succ_lt_succ hj)
          (Nat.succ_lt_succ hlt)
      have h0 : pilot_lt env pilot cfg n s = true :=
        hstrict 0 (by simp) (Nat.succ_pos i')
      simp only [pilot_lt] at h0
      cases hn : pilot_outcome env pilot cfg n with
      | none =>
        simp only [List.get, List.foldl, auto_step, hn]
        exact ih acc i' hi' s hout' hmax' hstrict' hacc
      | some t =>
        rw [hn] at h0
        have hts : t < s := by simpa using h0
        simp only [List.get, List.foldl, auto_step, hn]
        by_cases hlt : acc.2 < t
        · rw [if_pos hlt]
          exact ih (some n, t) i' hi' s hout' hmax' hstrict' hts
        · rw [if_neg hlt]
          exact ih acc i' hi' s hout' hmax' hstrict' hacc

/-- A candidate whose construction succeeded has a registry key, so its
name is never the empty string (whose Python truthiness would discard it). -/
theorem pilot_outcome_name_ne_empty (env : Env) (pilot : List Img)
    (cfg : Option Cfg) (name : String) (s : ℚ)
    (h : pilot_outcome env pilot cfg name = some s) : name ≠ "" := by
  intro he
  subst he
  have hb : build_adapter env "" = .error (.unknownEngine "") := rfl
  rw [pilot_outcome, hb] at h
  simp [Except.bind] at h

/-- C5: the engine auto-selector scores each candidate as its pilot run's
`mean_confidence` plus a 0.05 bonus when the first 512 characters of the
pilot text contain a script-bonus character (`pilot_outcome`); it skips
every candidate whose construction or pilot run raises; when every
candidate raises it returns the first candidate of the input list; it
returns the candidate with the strictly highest score, ties resolved in
favor of the earlier-listed candidate; and for a non-empty candidate list
it never raises. The nonnegativity hypothesis is the adapter contract
(`mean_confidence` is clamped into [0, 1]). -/
theorem C5_auto_select (env : Env) (images : List Img)
    (candidates : List String) (cfg : Option Cfg)
    (hpos : ∀ n ∈ candidates,
      pilot_nonneg env (pilot_crop images) cfg n = true) :
    ((∀ n ∈ candidates,
        pilot_outcome env (pilot_crop images) cfg n = none) →
      auto_select_engine env images candidates cfg = firstCandidate candidates)
    ∧ (∀ (i : Nat) (hi : i < candidates.length) (s : ℚ),
        pilot_outcome env (pilot_crop images) cfg (candidates.get ⟨i, hi⟩) =
          some s →
        (∀ n ∈ candidates, pilot_le env (pilot_crop images) cfg n s = true) →
        (∀ j (hj : j < candidates.length), j < i →
          pilot_lt env (pilot_crop images) cfg (candidates.get ⟨j, hj⟩) s =
            true) →
        auto_select_engine env images candidates cfg =
          .ok (candidates.get ⟨i, hi⟩))
    ∧ (candidates ≠ [] →
        ∃ chosen, auto_select_engine env images candidates cfg = .ok chosen) := by
  refine ⟨?_, ?_, ?_⟩
  · intro h
    unfold auto_select_engine
    rw [auto_fold_skip_all env (pilot_crop images) cfg candidates (none, -1) h]
  · intro i hi s hout hmax hstrict
    have hacc : ((none : Option String), (-1 : ℚ)).2 < s := by
      have := hpos (candidates.get ⟨i, hi⟩) (candidates.get_mem _ _)
      simp only [pilot_nonneg, hout] at this
      have h0 : (0 : ℚ) ≤ s := by simpa using this
      calc ((none : Option String), (-1 : ℚ)).2 = -1 := rfl
        _ < 0 := by norm_num
        _ ≤ s := h0
    have hname := pilot_outcome_name_ne_empty env (pilot_crop images) cfg _ s
      hout
    unfold auto_select_engine
    rw [auto_fold_argmax env (pilot_crop images) cfg candidates (none, -1) i hi
      s hout hmax hstrict hacc]
    show (if candidates.get ⟨i, hi⟩ = "" then firstCandidate candidates
      else Except.ok (candidates.get ⟨i, hi⟩)) =
      Except.ok (candidates.get ⟨i, hi⟩)
    exact if_neg hname
  · intro hne
    unfold auto_select_engine
    cases hbest : (candidates.foldl
        (auto_step env (pilot_crop images) cfg) (none, -1)).1 with
    | none =>
      cases candidates with
      | nil => exact absurd rfl hne
      | cons c cs => exact ⟨c, rfl⟩
    | some n =>
      by_cases hn : n = ""
      · cases candidates with
        | nil => exact absurd rfl hne
        | cons c cs => exact ⟨c, by simp [hn, firstCandidate]⟩
      · exact ⟨n, by simp [hn]⟩

/-- C5 witness: the script-bonus candidate (0.65 + 0.05) beats 0.6; an
exact tie goes to the earlier-listed candidate; when every candidate
raises, the first of the input list is returned. -/
theorem C5_witness :
    auto_select_engine envC5 [] ["paddle", "easyocr"] none = .ok "easyocr"
    ∧ auto_select_engine envC5 [] ["paddle", "tesseract"] none = .ok "paddle"
    ∧ auto_select_engine envC5 [] ["doctr", "nougat"] none = .ok "doctr" := by
  refine ⟨?_, ?_, ?_⟩
  · exact (C5_auto_select envC5 [] ["paddle", "easyocr"] none (by decide)).2.1
      1 (by decide) (mkRat 7 10) rfl (by decide) (by decide)
  · exact (C5_auto_select envC5 [] ["paddle", "tesseract"] none
      (by decide)).2.1 0 (by decide) (mkRat 6 10) rfl (by decide) (by decide)
  · exact (C5_auto_select envC5 [] ["doctr", "nougat"] none (by decide)).1
      (by decide)

/-- C6: vector-text bypass end-to-end. When the embedded-text extractor
succeeds with sufficient text (trimmed length at least 64) and
`prefer_ocr = false`, `recognize_pdf` returns `used_ocr = false`, no
engine, no confidence and exactly the extracted text, and the trace shows
the rasterizer was never invoked and no engine was ever constructed or
run (neither for the pilot nor for the fallback loop). -/
theorem C6_vector_bypass (env : Env) (path : String) (engine : String)
    (cfg : Option Cfg) (dpi : Nat) (fp lp : Option Nat) (θ : ℚ)
    (fo : Option (List String)) (t : String)
    (hpm : env.has_pdfminer = true)
    (hex : env.extract_vector_text path = .ok t)
    (hlen : 64 ≤ (pyStrip t).length) :
    recognize_pdf_traced env path engine false cfg dpi fp lp θ fo =
      (.ok ⟨some path, false, none, none, t, PipeMeta.vectorTrue⟩,
       ⟨true, false, [], []⟩) := by
  have hne : t ≠ "" := by
    intro h
    subst h
    simp [pyStrip] at hlen
  have hsuff : is_sufficient_vector_text t = true := by
    simp [is_sufficient_vector_text, hne, hlen]
  simp [recognize_pdf_traced, hpm, hex, hne, hsuff]

/-- C6 witness: the 80-character embedded text is returned verbatim with
`used_ocr = false` and an empty attempt trace, although rasterization and
every engine construction would have failed. -/
theorem C6_witness :
    recognize_pdf_traced envC6 "doc.pdf" "auto" false none 300 none none
      (mkRat 6 10) none =
      (.ok ⟨some "doc.pdf", false, none, none,
            String.mk (List.replicate 80 'v'), PipeMeta.vectorTrue⟩,
       ⟨true, false, [], []⟩) :=
  C6_vector_bypass envC6 "doc.pdf" "auto" none 300 none none (mkRat 6 10)
    none (String.mk (List.replicate 80 'v')) rfl rfl (by decide)

theorem vector_attempted_eq (env : Env) (path : String) (engine : String)
    (pre : Bool) (cfg : Option Cfg) (dpi : Nat) (fp lp : Option Nat) (θ : ℚ)
    (fo : Option (List String)) :
    (recognize_pdf_traced env path engine pre cfg dpi fp lp θ
      fo).2.vector_attempted = (!pre && env.has_pdfminer) := by
  simp only [recognize_pdf_traced]
  by_cases hg : ((if (!pre && env.has_pdfminer) = true then
      match env.extract_vector_text path with
      | .ok t => t
      | .error _ => "" else "") ≠ "" ∧
      is_sufficient_vector_text (if (!pre && env.has_pdfminer) = true then
        match env.extract_vector_text path with
        | .ok t => t
        | .error _ => "" else "") = true)
  · rw [if_pos hg]
  · rw [if_neg hg]
    cases hload : load_images_from_pdf env path dpi fp lp with
    | error e => rfl
    | ok images =>
      dsimp only
      by_cases hauto : engine = "auto"
      · subst hauto
        cases hsel : auto_select_engine env images default_fallback
            (some (cfg.getD [])) with
        | error e => rfl
        | ok eng => rfl
      · simp only [if_neg hauto]

/-- C7: the vector-text gate. (1) For a positive minimum length, the
sufficiency predicate holds exactly of texts whose stripped length
reaches the minimum (so every empty or too-short text is insufficient).
(2) With `prefer_ocr = true` the gate never attempts embedded-text
extraction and every successful result comes from recognition
(`used_ocr = true`). (3) An extraction failure is treated as
insufficient: every successful result again has `used_ocr = true`. -/
theorem C7_vector_gate (min_len : Nat) (t : String) (env : Env)
    (path : String) (engine : String) (cfg : Option Cfg) (dpi : Nat)
    (fp lp : Option Nat) (θ : ℚ) (fo : Option (List String)) (e : PipeError)
    (hmin : 0 < min_len) :
    (is_sufficient_vector_text t min_len = true ↔
      min_len ≤ (pyStrip t).length)
    ∧ ((recognize_pdf_traced env path engine true cfg dpi fp lp θ
          fo).2.vector_attempted = false
       ∧ ∀ r, (recognize_pdf_traced env path engine true cfg dpi fp lp θ
            fo).1 = .ok r → r.used_ocr = true)
    ∧ (env.extract_vector_text path = .error e →
       ∀ (pre : Bool) r,
         (recognize_pdf_traced env path engine pre cfg dpi fp lp θ fo).1 =
           .ok r → r.used_ocr = true) := by
  refine ⟨?_, ⟨?_, ?_⟩, ?_⟩
  · by_cases ht : t = ""
    · subst ht
      simp only [is_sufficient_vector_text, if_pos rfl]
      constructor
      · intro h; cases h
      · intro h
        have : (pyStrip "").length = 0 := rfl
        rw [this] at h
        omega
    · simp [is_sufficient_vector_text, ht]
  · rw [vector_attempted_eq]
    simp
  · intro r h
    rcases recognize_pdf_traced_ok env path engine true cfg dpi fp lp θ fo r h
      with ⟨_, _, _, hpre, _⟩ | ⟨h1, _⟩
    · cases hpre
    · exact h1
  · intro hext pre r h
    rcases recognize_pdf_traced_ok env path engine pre cfg dpi fp lp θ fo r h
      with ⟨_, _, _, _, _, hok, _⟩ | ⟨h1, _⟩
    · rw [hext] at hok; cases hok
    · exact h1

/-- C7 witness: a 64-character text is sufficient at the default minimum;
under `prefer_ocr = true` the gate does not attempt extraction and the
concrete pipeline result has `used_ocr = true`. -/
theorem C7_witness :
    is_sufficient_vector_text (String.mk (List.replicate 64 'a')) 64 = true
    ∧ (recognize_pdf_traced envC7 "p" "tesseract" true none 300 none none
        (mkRat 6 10) none).2.vector_attempted = false
    ∧ (⟨some "p", true, some "tesseract", some (mkRat 7 10), "W",
        PipeMeta.dict []⟩ : IngestResult).used_ocr = true := by
  refine ⟨?_, ?_, ?_⟩
  · exact (C7_vector_gate 64 (String.mk (List.replicate 64 'a')) envC7 "p"
      "tesseract" none 300 none none (mkRat 6 10) none
      (.otherFailure "parse failure") (by decide)).1.mpr (by decide)
  · exact (C7_vector_gate 64 "" envC7 "p" "tesseract" none 300 none none
      (mkRat 6 10) none (.otherFailure "parse failure") (by decide)).2.1.1
  · exact (C7_vector_gate 64 "" envC7 "p" "tesseract" none 300 none none
      (mkRat 6 10) none (.otherFailure "parse failure") (by decide)).2.1.2
      ⟨some "p", true, some "tesseract", some (mkRat 7 10), "W",
       PipeMeta.dict []⟩ rfl

/-- C8: dual-pass combination. With handwriting disabled the result is
the printed-only pass. With it enabled: if the handwriting pass
(construction or recognition) raises, the printed result is returned
unchanged; if it succeeds, the combined text is printed text, one
newline, handwriting text; the confidence is the maximum of the two pass
confidences; the engine identifier is the two names joined by `+`. -/
theorem C8_dual_pass (env : Env) (images : List Img) (pe he : String)
    (cfg : Option Cfg) :
    (maybe_enable_htr env images false pe he cfg =
       recognize_images env images pe cfg)
    ∧ (∀ printed, recognize_images env images pe cfg = .ok printed →
        (∀ e, (build_adapter env he).bind
            (fun a => a.recognize_images images cfg) = .error e →
          maybe_enable_htr env images true pe he cfg = .ok printed)
        ∧ (∀ hres, (build_adapter env he).bind
              (fun a => a.recognize_images images cfg) = .ok hres →
            maybe_enable_htr env images true pe he cfg =
              .ok ⟨none, true,
                   some (pyFormatOpt printed.engine ++ "+" ++ hres.engine),
                   some (max (printed.ocr_confidence.getD 0)
                     hres.mean_confidence),
                   printed.text ++ "\n" ++ hres.text,
                   PipeMeta.printedHtr printed.meta hres.meta⟩)) := by
  refine ⟨rfl, ?_⟩
  intro printed hpr
  constructor
  · intro e he2
    simp only [maybe_enable_htr, Bool.not_true, hpr, he2]
    rfl
  · intro hres hok
    simp only [maybe_enable_htr, Bool.not_true, hpr, hok]
    rfl

/-- C8 witness: printed `"P"` (0.5) plus handwriting `"H"` (0.8) combine
to text `"P\nH"`, confidence 0.8, engine `"paddle+trocr"`; with the
handwriting engine missing the printed result is returned unchanged; with
handwriting disabled the call is the printed-only pass. -/
theorem C8_witness :
    maybe_enable_htr envC8 [] true "paddle" "trocr" none =
      .ok ⟨none, true, some "paddle+trocr", some (mkRat 8 10), "P\nH",
           PipeMeta.printedHtr (PipeMeta.dict []) (PipeMeta.dict [])⟩
    ∧ maybe_enable_htr envC8b [] true "paddle" "trocr" none =
      .ok ⟨none, true, some "paddle", some (mkRat 1 2), "P",
           PipeMeta.dict []⟩
    ∧ maybe_enable_htr envC8 [] false "paddle" "trocr" none =
      recognize_images envC8 [] "paddle" none := by
  refine ⟨?_, ?_, ?_⟩
  · exact ((C8_dual_pass envC8 [] "paddle" "trocr" none).2
      ⟨none, true, some "paddle", some (mkRat 1 2), "P", PipeMeta.dict []⟩
      rfl).2 ⟨"H", mkRat 8 10, "trocr", PipeMeta.dict []⟩ rfl
  · exact ((C8_dual_pass envC8b [] "paddle" "trocr" none).2
      ⟨none, true, some "paddle", some (mkRat 1 2), "P", PipeMeta.dict []⟩
      rfl).1 (.dependencyUnavailable "trocr") rfl
  · exact (C8_dual_pass envC8 [] "paddle" "trocr" none).1

/-- C9: the fallback executor of the source has no time-based
abandonment: whenever no engine clears the threshold, every engine of the
candidate order is attempted — there is no input through which a caller
could bound the attempts, and no `Timeout` outcome exists. -/
theorem C9_no_timeout_no_abandonment
    (run : String → Except PipeError RecognizeResult) (ip : Option String)
    (θ : ℚ) (msg : String) :
    ∀ (order : List String) (last : Option RecognizeResult),
      (∀ n ∈ order, clears run θ n = false) →
      (fallbackLoop run ip θ msg order last).2 = order := by
  intro order
  induction order with
  | nil => intro last _; rfl
  | cons n rest ih =>
    intro last h
    have hn := h n (by simp)
    simp only [clears] at hn
    cases hrun : run n with
    | error e =>
      simp only [fallbackLoop, hrun]
      cases hfb : fallbackLoop run ip θ msg rest last with
      | mk r t =>
        have := ih last fun m hm => h m (List.mem_cons_of_mem _ hm)
        rw [hfb] at this
        simpa using this
    | ok r =>
      rw [hrun] at hn
      have hle : ¬ (θ ≤ r.mean_confidence) := by simpa using hn
      simp only [fallbackLoop, hrun, if_neg hle]
      cases hfb : fallbackLoop run ip θ msg rest (some r) with
      | mk r' t =>
        have := ih (some r) fun m hm => h m (List.mem_cons_of_mem _ hm)
        rw [hfb] at this
        simpa using this

/-- C9 witness: with every engine failing or below threshold, the
executor attempts the complete order — nothing is abandoned. -/
theorem C9_witness :
    (fallbackLoop runW9 none (mkRat 6 10) "m" ["p", "q", "r"] none).2 =
      ["p", "q", "r"] :=
  C9_no_timeout_no_abandonment runW9 none (mkRat 6 10) "m" ["p", "q", "r"]
    none (by decide)

theorem fold_append_head (defaults : List String) :
    ∀ (x : String) (o : List String),
      ∃ tail, defaults.foldl (fun o n => if o.contains n then o else o ++ [n])
        (x :: o) = x :: tail := by
  induction defaults with
  | nil => intro x o; exact ⟨o, rfl⟩
  | cons d ds ih =>
    intro x o
    simp only [List.foldl]
    by_cases hc : (x :: o).contains d
    · rw [if_pos hc]; exact ih x o
    · rw [if_neg hc]
      have hxo : (x :: o) ++ [d] = x :: (o ++ [d]) := by simp
      rw [hxo]
      exact ih x (o ++ [d])

/-- C10 (amended): when the caller supplies no fallback order, an
explicitly specified engine (not `"auto"`) runs first; if its adapter is
constructed, reports `supports_pdf = true` and its `recognize_pdf` on the
original path with only the configuration record clears the threshold,
then the pipeline's result is identical across any two invocations that
differ only in `dpi`, `first_page` and `last_page` (provided both
rasterizations succeed, since rasterization precedes the loop), and every
successful result is either the vector bypass or exactly that engine's
PDF outcome. (With a caller-supplied fallback order the property fails:
an image-based engine placed before the specified one can clear the
threshold at one dpi only — see the counterexample.) -/
theorem C10_dpi_independence (env : Env) (path engine : String) (pre : Bool)
    (cfg : Option Cfg) (θ : ℚ) (dpi₁ dpi₂ : Nat)
    (fp₁ lp₁ fp₂ lp₂ : Option Nat) (a : Adapter) (res : RecognizeResult)
    (imgs₁ imgs₂ : List Img)
    (hne : engine ≠ "auto")
    (him : env.has_pdf2image = true)
    (hr₁ : env.rasterize path dpi₁ fp₁ lp₁ = .ok imgs₁)
    (hr₂ : env.rasterize path dpi₂ fp₂ lp₂ = .ok imgs₂)
    (hb : build_adapter env engine = .ok a)
    (hs : a.supports_pdf = true)
    (hres : a.recognize_pdf path (some (cfg.getD [])) = .ok res)
    (hθ : θ ≤ res.mean_confidence) :
    recognize_pdf env path engine pre cfg dpi₁ fp₁ lp₁ θ none =
      recognize_pdf env path engine pre cfg dpi₂ fp₂ lp₂ θ none
    ∧ ∀ r, recognize_pdf env path engine pre cfg dpi₁ fp₁ lp₁ θ none =
        .ok r →
        r.used_ocr = false ∨
        r = ⟨some path, true, some engine, some res.mean_confidence,
             res.text, res.meta⟩ := by
  have hrun : ∀ imgs, run_engine_pdf env path imgs (cfg.getD []) engine =
      .ok res := by
    intro imgs
    simp only [run_engine_pdf, hb, Except.bind, hs, if_pos, hres]
  obtain ⟨tail, htail⟩ := fold_append_head default_fallback engine []
  have horder : build_order engine none = engine :: tail := by
    have hc : ([engine] : List String).contains engine = true := by simp
    simp only [build_order]
    rw [if_pos hc]
    exact htail
  by_cases hg : ((if (!pre && env.has_pdfminer) = true then
      match env.extract_vector_text path with
      | .ok t => t
      | .error _ => "" else "") ≠ "" ∧
      is_sufficient_vector_text (if (!pre && env.has_pdfminer) = true then
        match env.extract_vector_text path with
        | .ok t => t
        | .error _ => "" else "") = true)
  · constructor
    · simp only [recognize_pdf, recognize_pdf_traced]
      rw [if_pos hg, if_pos hg]
    · intro r h
      simp only [recognize_pdf, recognize_pdf_traced] at h
      rw [if_pos hg] at h
      simp only at h
      cases h
      left
      rfl
  · have key : ∀ (dpi : Nat) (fp lp : Option Nat) (imgs : List Img),
        env.rasterize path dpi fp lp = .ok imgs →
        recognize_pdf env path engine pre cfg dpi fp lp θ none =
          .ok ⟨some path, true, some engine, some res.mean_confidence,
               res.text, res.meta⟩ := by
      intro dpi fp lp imgs hr
      simp only [recognize_pdf, recognize_pdf_traced]
      rw [if_neg hg]
      have hload : load_images_from_pdf env path dpi fp lp = .ok imgs := by
        simp [load_images_from_pdf, him, hr]
      rw [hload]
      simp only [if_neg hne]
      rw [horder]
      simp only [fallbackLoop, hrun imgs, if_pos hθ]
    constructor
    · rw [key dpi₁ fp₁ lp₁ imgs₁ hr₁, key dpi₂ fp₂ lp₂ imgs₂ hr₂]
    · intro r h
      rw [key dpi₁ fp₁ lp₁ imgs₁ hr₁] at h
      cases h
      right
      rfl

/-- C10 counterexample: with the explicit engine `paddle`
(`supports_pdf = true`, PDF recognition at confidence 0.9 ≥ 0.6) and the
caller fallback order `["tesseract", "paddle"]`, two invocations that
differ only in dpi (300 vs 72) return different texts and engines —
at 300 dpi the image-based `tesseract` clears the threshold first and
`paddle` is never invoked, so the claimed dpi-independence fails. -/
theorem C10_counterexample :
    recognize_pdf envC10 "d.pdf" "paddle" false none 300 none none
      (mkRat 6 10) (some ["tesseract", "paddle"]) =
      .ok ⟨some "d.pdf", true, some "tesseract", some (mkRat 9 10),
           "tess-high", PipeMeta.dict []⟩
    ∧ recognize_pdf envC10 "d.pdf" "paddle" false none 72 none none
      (mkRat 6 10) (some ["tesseract", "paddle"]) =
      .ok ⟨some "d.pdf", true, some "paddle", some (mkRat 9 10),
           "paddle-text", PipeMeta.dict []⟩
    ∧ ("tess-high" : String) ≠ "paddle-text"
    ∧ build_adapter envC10 "paddle" = .ok paddleC10
    ∧ paddleC10.supports_pdf = true
    ∧ paddleC10.recognize_pdf "d.pdf" (some []) =
        .ok ⟨"paddle-text", mkRat 9 10, "paddle", .dict []⟩
    ∧ mkRat 6 10 ≤ mkRat 9 10 :=
  ⟨rfl, rfl, by decide, rfl, rfl, rfl, by decide⟩

/-- C10 witness: without a caller fallback order, the result of the
explicit PDF-capable engine is identical at dpi 300 (full range) and
dpi 72 (pages 1-2). -/
theorem C10_witness :
    recognize_pdf envC10 "d.pdf" "paddle" false none 300 none none
      (mkRat 6 10) none =
      recognize_pdf envC10 "d.pdf" "paddle" false none 72 (some 1) (some 2)
        (mkRat 6 10) none :=
  (C10_dpi_independence envC10 "d.pdf" "paddle" false none (mkRat 6 10)
    300 72 none none (some 1) (some 2) paddleC10
    ⟨"paddle-text", mkRat 9 10, "paddle", .dict []⟩
    [⟨300, 300, 0⟩] [⟨72, 72, 0⟩] (by decide) rfl rfl rfl rfl rfl rfl
    (by decide)).1

end LangExtract
